import Mathlib

/-!
Verification of the IntelliStream frontend chat core against its
natural-language specification.

The development shallowly embeds the TypeScript sources
`src/frontend/src/hooks/useChat.ts`, `src/frontend/src/lib/...`
(`sendChatMessage`, `streamChatMessage`, the `StreamEvent` protocol) and
`src/frontend/src/types/index.ts` into Lean:

* strings are Lean `String` (or `List Char` for the byte-stream claims;
  `TextDecoder` with `stream: true` makes byte-level chunk reassembly
  transparent, so chunks are modelled at character granularity);
* JavaScript `undefined` / optional fields become `Option`;
* JavaScript truthiness tests on strings (`s` is falsy iff `s === ""`)
  are modelled explicitly (`truthyS`, `jsOrElse`, `jsOrUndef`);
* `throw` / `try`-`catch` become an `Option String` error component;
* IEEE-754 scores are only ever copied, never computed with, so they are
  carried as `ℚ`;
* React state updates are sequentialised: one `sendMessage` call is a
  pure function from the pre-call hook state and the list of stream
  events to the post-call hook state plus the issued HTTP request.
-/

namespace IntelliStream

/-! ## Data model (src/frontend/src/types/index.ts, lib API types) -/

inductive Role where
  | user
  | assistant
  | system
deriving DecidableEq, Repr

/-- The string form of a role, as it appears in JSON payloads. -/
def roleString : Role → String
  | .user => "user"
  | .assistant => "assistant"
  | .system => "system"

structure Source where
  id : String
  title : String
  url : Option String := none
  snippet : String
  score : ℚ
deriving DecidableEq, Repr

structure AgentTrace where
  agent : String
  action : String
  latency_ms : Option Nat := none
deriving DecidableEq, Repr

structure Attachment where
  kind : String
  name : String
  url : Option String := none
  size : Option Nat := none
deriving DecidableEq, Repr

/-- The `response` sub-object stored inside a `MessageVersion`. -/
structure VersionResponse where
  id : String
  content : String
  sources : Option (List Source) := none
  timestamp : Nat
deriving DecidableEq, Repr

structure MessageVersion where
  id : String
  content : String
  timestamp : Nat
  response : Option VersionResponse := none
deriving DecidableEq, Repr

structure Message where
  id : String
  role : Role
  content : String
  sources : Option (List Source) := none
  agentTrace : Option (List AgentTrace) := none
  attachments : Option (List Attachment) := none
  timestamp : Nat
  isStreaming : Option Bool := none
  versions : Option (List MessageVersion) := none
  currentVersionIndex : Option Nat := none
  parentMessageId : Option String := none
deriving DecidableEq, Repr

structure HistoryMessage where
  role : String
  content : String
deriving DecidableEq, Repr

structure ChatRequest where
  message : String
  thread_id : Option String := none
  history : Option (List HistoryMessage) := none
  streaming_speed : String
deriving DecidableEq, Repr

structure ChatResponse where
  response : String
  thread_id : String
  sources : List Source
  agent_trace : List AgentTrace
  latency_ms : Nat
deriving DecidableEq, Repr

/-- A server-sent stream event.  The TypeScript `data?` object and its
optional fields are flattened to one layer of `Option`: the code only
ever reads them through `event.data?.field`, which cannot distinguish a
missing `data` object from a missing field. -/
structure StreamEvent where
  type : String
  agent : Option String := none
  status : Option String := none
  content : Option String := none
  sources : Option (List Source) := none
  thread_id : Option String := none
  message : Option String := none
deriving DecidableEq, Repr

/-! ## JavaScript string truthiness helpers -/

/-- Truthiness of `o` in a guard `event.data?.f && ...`: an absent field
and the empty string are both falsy. -/
def truthyS : Option String → Bool
  | some s => !s.isEmpty
  | none => false

/-- JavaScript `o || d` for an optional string `o`: the empty string is
falsy and is replaced by the default as well. -/
def jsOrElse (o : Option String) (d : String) : String :=
  match o with
  | some s => if s.isEmpty then d else s
  | none => d

/-- JavaScript `o || undefined` for an optional string: the empty string
collapses to `undefined`. -/
def jsOrUndef (o : Option String) : Option String :=
  match o with
  | some s => if s.isEmpty then none else some s
  | none => none

/-- JavaScript `String.prototype.slice(0, n)`: the first at most `n`
characters (code units are modelled at character granularity). -/
def jsSlice (s : String) (n : Nat) : String :=
  String.mk (s.toList.take n)

/-- JavaScript `String.prototype.trim`: strip leading and trailing
whitespace. -/
def jsTrim (s : String) : String :=
  String.mk (((s.toList.dropWhile Char.isWhitespace).reverse.dropWhile
    Char.isWhitespace).reverse)

/-! ## sendChatMessage (non-streaming variant, lib API) -/

/-- The `fetch` response as `sendChatMessage` observes it: the `ok`
flag, the numeric status, and the JSON body (parsing by
`response.json()` is an external library call, modelled as the
already-parsed payload). -/
structure HttpResponse where
  ok : Bool
  status : Nat
  body : ChatResponse
deriving DecidableEq, Repr

/-- `sendChatMessage` from the lib API module: on a non-ok response it
throws `Error("HTTP error! status: <status>")`, otherwise it returns the
parsed JSON body. -/
def sendChatMessage (resp : HttpResponse) : Except String ChatResponse :=
  if resp.ok then
    Except.ok resp.body
  else
    Except.error ("HTTP error! status: " ++ toString resp.status)

end IntelliStream

namespace IntelliStream

/-! ## Claim C8 -/

/-- Claim C8: for every HTTP response received by `sendChatMessage`,
when the status is ok the parsed JSON body is returned as the
`ChatResponse` payload, and when the status is not ok an error is thrown
whose message contains the HTTP status, with no partial payload (the
error value carries no `ChatResponse`). -/
theorem sendChatMessage_ok_and_error (resp : HttpResponse) :
    (resp.ok = true → sendChatMessage resp = Except.ok resp.body) ∧
    (resp.ok = false →
      sendChatMessage resp =
        Except.error ("HTTP error! status: " ++ toString resp.status) ∧
      ∃ pre post : String,
        "HTTP error! status: " ++ toString resp.status =
          pre ++ toString resp.status ++ post) := by
  constructor
  · intro h
    simp [sendChatMessage, h]
  · intro h
    refine ⟨by simp [sendChatMessage, h], "HTTP error! status: ", "", ?_⟩
    simp

/-- Concrete instantiation of `sendChatMessage_ok_and_error`, at an ok
response and at a status-500 failure. -/
theorem sendChatMessage_ok_and_error_witness :
    (sendChatMessage
        ⟨true, 200, ⟨"hi", "t1", [], [], 5⟩⟩ =
      Except.ok ⟨"hi", "t1", [], [], 5⟩) ∧
    (sendChatMessage ⟨false, 500, ⟨"hi", "t1", [], [], 5⟩⟩ =
      Except.error "HTTP error! status: 500") := by
  refine ⟨(sendChatMessage_ok_and_error _).1 rfl, ?_⟩
  exact ((sendChatMessage_ok_and_error
    ⟨false, 500, ⟨"hi", "t1", [], [], 5⟩⟩).2 rfl).1

end IntelliStream

namespace IntelliStream

/-! ## streamChatMessage (lib API): the SSE line-reassembly loop

The body of the `while` loop does `buffer += chunk`, splits the buffer
at `"\n"`, pops the last (not yet newline-terminated) segment back into
the buffer, and for every remaining line starting with `"data: "` tries
`JSON.parse(line.slice(6))`, yielding on success and ignoring parse
errors.  `JSON.parse` is an external library routine, so the embedding
is parametric in a partial parsing function `parse`. -/

/-- Split a character sequence into its newline-terminated lines (without
the terminator) and the trailing remainder after the last newline.  This
is exactly `buffer.split("\n")` followed by `pop`: the popped element is
the remainder, the rest are the complete lines. -/
def splitLines : List Char → List (List Char) × List Char
  | [] => ([], [])
  | c :: cs =>
    let r := splitLines cs
    if c = '\n' then ([] :: r.1, r.2)
    else
      match r.1 with
      | [] => ([], c :: r.2)
      | l :: ls => ((c :: l) :: ls, r.2)

/-- One line of the SSE body: if it starts with `"data: "`, parse the
rest; otherwise (and on parse failure) produce nothing. -/
def dataLineEvent {α : Type} (parse : List Char → Option α)
    (line : List Char) : Option α :=
  if "data: ".toList.isPrefixOf line then parse (line.drop 6) else none

/-- The reader loop of `streamChatMessage`: starting from the carried
buffer, consume each chunk in order, split off the complete lines, and
yield the events of the `"data: "` lines in order.  The final buffer
content (no trailing newline) is discarded when the stream ends, exactly
as in the source. -/
def streamChatMessage {α : Type} (parse : List Char → Option α) :
    List Char → List (List Char) → List α
  | _, [] => []
  | buf, chunk :: rest =>
    let r := splitLines (buf ++ chunk)
    r.1.filterMap (dataLineEvent parse) ++ streamChatMessage parse r.2 rest

/-- The lines produced by `splitLines` contain no newline, and neither
does the remainder. -/
theorem splitLines_no_newline (s : List Char) :
    (∀ l ∈ (splitLines s).1, '\n' ∉ l) ∧ '\n' ∉ (splitLines s).2 := by
  induction s with
  | nil => simp [splitLines]
  | cons c cs ih =>
    by_cases hc : c = '\n'
    · subst hc
      simpa [splitLines] using ih
    · rcases h : (splitLines cs).1 with _ | ⟨l, ls⟩
      · refine ⟨by simp [splitLines, hc, h], ?_⟩
        simp only [splitLines, hc, if_false, h]
        intro hmem
        rcases List.mem_cons.mp hmem with h1 | h1
        · exact hc h1.symm
        · exact ih.2 h1
      · refine ⟨?_, by simpa [splitLines, hc, h] using ih.2⟩
        simp only [splitLines, hc, if_false, h]
        intro l2 hl2
        rcases List.mem_cons.mp hl2 with h1 | h1
        · subst h1
          intro hmem
          rcases List.mem_cons.mp hmem with h2 | h2
          · exact hc h2.symm
          · exact ih.1 l (by simp [h]) h2
        · exact ih.1 l2 (by simp [h, h1]) 

/-- Restoring the newlines after each complete line and appending the
remainder recovers the input: `splitLines` loses nothing. -/
theorem splitLines_join (s : List Char) :
    ((splitLines s).1.map (· ++ ['\n'])).flatten ++ (splitLines s).2 = s := by
  induction s with
  | nil => simp [splitLines]
  | cons c cs ih =>
    by_cases hc : c = '\n'
    · subst hc
      simpa [splitLines] using ih
    · rcases h : (splitLines cs).1 with _ | ⟨l, ls⟩
      · simp only [splitLines, hc, if_false, h]
        simpa [h] using ih
      · simp only [splitLines, hc, if_false, h]
        simp only [h] at ih
        simpa using ih

/-- A newline-free text has no complete line: everything stays in the
remainder. -/
theorem splitLines_of_no_newline (s : List Char) (h : '\n' ∉ s) :
    splitLines s = ([], s) := by
  induction s with
  | nil => rfl
  | cons c cs ih =>
    have hc : ¬c = '\n' := fun hcc => h (by simp [hcc])
    have hcs : '\n' ∉ cs := fun hmem => h (by simp [hmem])
    simp [splitLines, hc, ih hcs]

/-- One-step unfolding of `splitLines` on a cons cell, with the
recursive call exposed through its projections. -/
theorem splitLines_cons (c : Char) (s : List Char) :
    splitLines (c :: s) =
      if c = '\n' then ([] :: (splitLines s).1, (splitLines s).2)
      else
        match (splitLines s).1 with
        | [] => ([], c :: (splitLines s).2)
        | l :: ls => ((c :: l) :: ls, (splitLines s).2) := rfl

/-- Splitting a concatenation: the complete lines of `a ++ b` are the
complete lines of `a` followed by those of the remainder of `a` glued to
`b`, and the remainders agree. -/
theorem splitLines_append (a b : List Char) :
    splitLines (a ++ b) =
      ((splitLines a).1 ++ (splitLines ((splitLines a).2 ++ b)).1,
       (splitLines ((splitLines a).2 ++ b)).2) := by
  induction a with
  | nil => simp [splitLines]
  | cons c a ih =>
    rw [List.cons_append, splitLines_cons, splitLines_cons, ih]
    by_cases hc : c = '\n'
    · simp [hc]
    · rcases hS : (splitLines a).1 with _ | ⟨l, ls⟩
      · rcases hT : (splitLines ((splitLines a).2 ++ b)).1 with _ | ⟨t, ts⟩
        · simp only [hc, if_false, hS, List.nil_append]
          rw [List.cons_append, splitLines_cons]
          simp [hc, hT]
        · simp only [hc, if_false, hS, List.nil_append]
          rw [List.cons_append, splitLines_cons]
          simp [hc, hT]
      · simp only [hc, if_false, hS, List.cons_append]

end IntelliStream

namespace IntelliStream

/-- With a newline-free carried buffer (the loop invariant: the buffer
is always the remainder of a previous split), running the chunk loop
equals splitting the concatenation of the buffer and all remaining
chunks in one pass. -/
theorem streamChatMessage_flatten {α : Type} (parse : List Char → Option α)
    (chunks : List (List Char)) :
    ∀ buf, '\n' ∉ buf →
      streamChatMessage parse buf chunks =
        ((splitLines (buf ++ chunks.flatten)).1).filterMap
          (dataLineEvent parse) := by
  induction chunks with
  | nil =>
    intro buf h
    simp [streamChatMessage, splitLines_of_no_newline buf h]
  | cons c cs ih =>
    intro buf h
    simp only [streamChatMessage]
    rw [ih _ (splitLines_no_newline (buf ++ c)).2]
    rw [List.flatten_cons, ← List.append_assoc,
      splitLines_append (buf ++ c) cs.flatten]
    simp

/-- Claim C2: for every character sequence and every way of splitting it
into successive chunks, `streamChatMessage` yields exactly the values
parsed from the newline-terminated lines that start with `"data: "`, in
the order those lines occur (lines that fail to parse produce nothing,
without raising); consequently the yielded event sequence is identical
for every chunking of the same sequence, so no event is reordered or
duplicated by chunk boundaries. -/
theorem streamChatMessage_chunk_invariant {α : Type}
    (parse : List Char → Option α) (chunks : List (List Char)) :
    streamChatMessage parse [] chunks =
      ((splitLines chunks.flatten).1).filterMap (dataLineEvent parse) ∧
    ∀ chunks2 : List (List Char), chunks2.flatten = chunks.flatten →
      streamChatMessage parse [] chunks2 = streamChatMessage parse [] chunks := by
  have h0 : ('\n' : Char) ∉ ([] : List Char) := by simp
  refine ⟨by simpa using streamChatMessage_flatten parse chunks [] h0, ?_⟩
  intro chunks2 h2
  rw [streamChatMessage_flatten parse chunks [] h0,
    streamChatMessage_flatten parse chunks2 [] h0, h2]

/-- Concrete instantiation of `streamChatMessage_chunk_invariant`: the
same SSE bytes, chunked differently (including a chunk boundary inside
the `"data: "` marker), yield the same event list. -/
theorem streamChatMessage_chunk_invariant_witness :
    streamChatMessage (fun l => some (String.mk l)) []
        ["da".toList, "ta: 1\nx".toList] =
      streamChatMessage (fun l => some (String.mk l)) []
        ["data: 1\nx".toList] :=
  (streamChatMessage_chunk_invariant (fun l => some (String.mk l))
    ["data: 1\nx".toList]).2 ["da".toList, "ta: 1\nx".toList] (by rfl)

end IntelliStream

namespace IntelliStream

/-! ## useChat (src/frontend/src/hooks/useChat.ts)

One `sendMessage` call is modelled as a pure function of the pre-call
hook state, the message content, the two generated message ids, the
current clock value, and the list of events produced by
`streamChatMessage`.  Side effects outside the hook state (sounds,
browser notifications, the HTTP transport itself) are outside the
embedding. -/

/-- The runtime agent-status object: a JavaScript object used as a
string-keyed map (the spread `{ ...prev, [agent]: status }` can add keys
beyond the six declared in the `AgentStatus` interface).  An absent key
is `none`. -/
def AgentStatusMap : Type := String → Option String

/-- `initialAgentStatus` from useChat.ts: the six pipeline agents, all
`"pending"`. -/
def initialAgentStatus : AgentStatusMap := fun k =>
  if k = "router" ∨ k = "research" ∨ k = "analysis" ∨ k = "synthesizer" ∨
      k = "reflection" ∨ k = "response" then
    some "pending"
  else none

/-- JavaScript computed-key object update `{ ...m, [k]: v }`. -/
def jsObjectSet (m : AgentStatusMap) (k v : String) : AgentStatusMap :=
  fun q => if q = k then some v else m q

/-- The hook state of `useChat` touched by `sendMessage`. -/
structure ChatState where
  messages : List Message
  isLoading : Bool
  error : Option String
  threadId : Option String
  agentStatus : AgentStatusMap

/-- The mutable bindings live across one `for await` loop: the current
message list and agent statuses, the thread id, and the `fullContent`
and `sources` locals. -/
structure LoopState where
  messages : List Message
  agentStatus : AgentStatusMap
  threadId : Option String
  fullContent : String
  sources : List Source

/-- One non-throwing iteration of the `for await (const event of ...)`
body: the `agent_status` / `token` / `response` / `done` branches, each
guarded by the truthiness of the data field it reads; an event matching
no branch leaves the state unchanged. -/
def stepEvent (assistantId : String) (st : LoopState) (e : StreamEvent) :
    LoopState :=
  if e.type = "agent_status" ∧ truthyS e.agent then
    { st with
      agentStatus := jsObjectSet st.agentStatus (e.agent.getD "")
        (if e.status = some "started" then "running" else "completed") }
  else if e.type = "token" ∧ truthyS e.content then
    { st with
      messages := st.messages.map fun m =>
        if m.id = assistantId then
          { m with content := e.content.getD "", isStreaming := some true }
        else m }
  else if e.type = "response" ∧ truthyS e.content then
    { st with fullContent := e.content.getD "", sources := e.sources.getD [] }
  else if e.type = "done" ∧ truthyS e.thread_id then
    { st with threadId := e.thread_id }
  else st

/-- The whole `for await` loop: process events in order; an event of
type `"error"` throws `Error(event.data?.message || "Unknown error")`,
ending consumption immediately (the remaining events are never read).
The second component is the thrown message, `none` on normal
completion. -/
def runEvents (assistantId : String) (st : LoopState) :
    List StreamEvent → LoopState × Option String
  | [] => (st, none)
  | e :: es =>
    if e.type = "error" then
      (st, some (jsOrElse e.message "Unknown error"))
    else runEvents assistantId (stepEvent assistantId st e) es

/-- `MAX_HISTORY` from useChat.ts. -/
def MAX_HISTORY : Nat := 20

/-- The history filter: `m.role === "user" || m.role === "assistant"`. -/
def isUA (m : Message) : Bool :=
  m.role = Role.user ∨ m.role = Role.assistant

/-- The conversation history sent with a request: the user/assistant
messages among the pre-send messages, the last `MAX_HISTORY` of them
(`slice(-20)`), each content truncated to 2000 characters. -/
def buildHistory (messages : List Message) : List HistoryMessage :=
  let fl := messages.filter isUA
  (fl.drop (fl.length - MAX_HISTORY)).map fun m =>
    { role := roleString m.role, content := jsSlice m.content 2000 }

/-- The per-message success rewrite of the post-loop update: the
placeholder assistant message receives the final content, sources and
`isStreaming: false`; other messages pass through. -/
def finalProps (assistantId fullContent : String) (sources : List Source)
    (m : Message) : Message :=
  if m.id = assistantId then
    { m with content := fullContent, sources := some sources,
             isStreaming := some false }
  else m

/-- The post-loop success update: rewrite the placeholder assistant
message with the final content, sources and `isStreaming: false`, then,
if the message right before it is a user message with a non-empty
version list, store the response into that message's last version. -/
def finalizeMessages (assistantId fullContent : String) (sources : List Source)
    (now : Nat) (msgs : List Message) : List Message :=
  let result := msgs.map (finalProps assistantId fullContent sources)
  match result.findIdx? (fun m => m.id = assistantId) with
  | none => result
  | some i =>
    if 0 < i then
      match result[i - 1]? with
      | none => result
      | some userMsg =>
        match userMsg.versions with
        | none => result
        | some vs =>
          if userMsg.role = Role.user ∧ 0 < vs.length then
            match vs[vs.length - 1]? with
            | none => result
            | some lastVersion =>
              result.set (i - 1)
                { userMsg with
                  versions := some (vs.set (vs.length - 1)
                    { lastVersion with
                      response := some
                        { id := assistantId, content := fullContent,
                          sources := some sources, timestamp := now } }) }
          else result
    else result

/-- The loop state before any event is processed: the pre-send messages
followed by the freshly appended user message and streaming assistant
placeholder, the reset agent statuses, the captured thread id, and the
`fullContent`/`sources` locals at their initial values. -/
def loopInit (s : ChatState) (content : String)
    (attachments : Option (List Attachment)) (userId assistantId : String)
    (now : Nat) : LoopState :=
  { messages := s.messages ++
      [{ id := userId, role := Role.user, content := content,
         attachments := attachments, timestamp := now },
       { id := assistantId, role := Role.assistant, content := "",
         timestamp := now, isStreaming := some true }],
    agentStatus := initialAgentStatus, threadId := s.threadId,
    fullContent := "", sources := [] }

/-- The request body passed to `streamChatMessage`: the content, the
captured thread id (`threadId || undefined`), the bounded history
(omitted when empty), and the streaming speed. -/
def coreReq (speed : String) (s : ChatState) (content : String) :
    ChatRequest :=
  { message := content, thread_id := jsOrUndef s.threadId,
    history := if 0 < (buildHistory s.messages).length then
        some (buildHistory s.messages) else none,
    streaming_speed := speed }

/-- The hook state after a normal loop completion: the success update of
the messages, loading cleared, no error, and the loop's thread id and
agent statuses. -/
def successState (assistantId : String) (now : Nat) (st : LoopState) :
    ChatState :=
  { messages := finalizeMessages assistantId st.fullContent st.sources
      now st.messages,
    isLoading := false, error := none, threadId := st.threadId,
    agentStatus := st.agentStatus }

/-- The hook state after the catch block: the assistant placeholder is
rewritten to `"Error: " ++ errMsg` with streaming off, the error state
is set, loading is cleared. -/
def errorState (assistantId : String) (st : LoopState) (errMsg : String) :
    ChatState :=
  { messages := st.messages.map fun m =>
      if m.id = assistantId then
        { m with content := "Error: " ++ errMsg, isStreaming := some false }
      else m,
    isLoading := false, error := some errMsg, threadId := st.threadId,
    agentStatus := st.agentStatus }

/-- The shared body of `sendMessage` and `sendMessageWithAttachments`
after their (different) early-return guards: append the user message and
the streaming placeholder, build the request, consume the event stream,
and apply either the success update or the catch-block update.  The
returned request is what was passed to `streamChatMessage`. -/
def sendCore (speed : String) (s : ChatState) (content : String)
    (attachments : Option (List Attachment)) (userId assistantId : String)
    (now : Nat) (events : List StreamEvent) : ChatState × Option ChatRequest :=
  match runEvents assistantId
      (loopInit s content attachments userId assistantId now) events with
  | (st, none) => (successState assistantId now st, some (coreReq speed s content))
  | (st, some errMsg) =>
    (errorState assistantId st errMsg, some (coreReq speed s content))

/-- `sendMessage` from useChat.ts: early return when the trimmed content
is empty or a send is already in flight, otherwise the shared body with
no attachments. -/
def sendMessage (speed : String) (s : ChatState) (content : String)
    (userId assistantId : String) (now : Nat) (events : List StreamEvent) :
    ChatState × Option ChatRequest :=
  if (jsTrim content).isEmpty ∨ s.isLoading then (s, none)
  else sendCore speed s content none userId assistantId now events

/-- `sendMessageWithAttachments` from useChat.ts: early return when the
trimmed content is empty and there are no attachments, or a send is
already in flight. -/
def sendMessageWithAttachments (speed : String) (s : ChatState)
    (content : String) (attachments : List Attachment)
    (userId assistantId : String) (now : Nat) (events : List StreamEvent) :
    ChatState × Option ChatRequest :=
  if ((jsTrim content).isEmpty ∧ attachments.isEmpty) ∨ s.isLoading then (s, none)
  else sendCore speed s content (some attachments) userId assistantId now events

end IntelliStream

namespace IntelliStream

/-! ## Claim C9 -/

/-- Claim C9: when the content is empty or whitespace-only, or a send is
already in flight, `sendMessage` returns without changing any hook state
and without issuing a request; `sendMessageWithAttachments` behaves the
same when additionally no attachments are given. -/
theorem sendMessage_guard_no_op (speed : String) (s : ChatState)
    (content : String) (userId assistantId : String) (now : Nat)
    (events : List StreamEvent)
    (h : (jsTrim content).isEmpty = true ∨ s.isLoading = true) :
    sendMessage speed s content userId assistantId now events = (s, none) ∧
    sendMessageWithAttachments speed s content [] userId assistantId now
      events = (s, none) := by
  constructor
  · rcases h with h | h <;> simp [sendMessage, h]
  · rcases h with h | h <;> simp [sendMessageWithAttachments, h]

/-- Concrete instantiation of `sendMessage_guard_no_op` at a
whitespace-only content and at a state with a send in flight. -/
theorem sendMessage_guard_no_op_witness :
    (sendMessage "medium"
        ⟨[], false, none, none, initialAgentStatus⟩ "   " "u1" "a1" 0 [] =
      (⟨[], false, none, none, initialAgentStatus⟩, none)) ∧
    (sendMessage "medium"
        ⟨[], true, none, none, initialAgentStatus⟩ "hello" "u1" "a1" 0 [] =
      (⟨[], true, none, none, initialAgentStatus⟩, none)) := by
  constructor
  · exact (sendMessage_guard_no_op "medium" _ "   " "u1" "a1" 0 []
      (Or.inl (by decide))).1
  · exact (sendMessage_guard_no_op "medium" _ "hello" "u1" "a1" 0 []
      (Or.inr rfl)).1

end IntelliStream

namespace IntelliStream

/-! ## Event-loop lemmas shared by the sendMessage claims -/

/-- Bool form of the throw test of the loop. -/
def isError (e : StreamEvent) : Bool := e.type == "error"

/-- The last event of type `"response"` carrying a non-empty content
field, if any. -/
def lastResp : List StreamEvent → Option StreamEvent
  | [] => none
  | e :: es =>
    match lastResp es with
    | some r => some r
    | none => if e.type = "response" ∧ truthyS e.content then some e else none

/-- The last event of type `"done"` carrying a non-empty thread id, if
any. -/
def lastDone : List StreamEvent → Option StreamEvent
  | [] => none
  | e :: es =>
    match lastDone es with
    | some r => some r
    | none => if e.type = "done" ∧ truthyS e.thread_id then some e else none

theorem lastResp_spec {l : List StreamEvent} {e : StreamEvent}
    (h : lastResp l = some e) :
    e.type = "response" ∧ truthyS e.content = true := by
  induction l with
  | nil => simp [lastResp] at h
  | cons a as ih =>
    simp only [lastResp] at h
    rcases hr : lastResp as with _ | r
    · rw [hr] at h
      by_cases ha : a.type = "response" ∧ truthyS a.content
      · simp only [ha, if_pos, and_true] at h
        cases h
        exact ⟨ha.1, ha.2⟩
      · simp [ha] at h
    · rw [hr] at h
      cases h
      exact ih hr

theorem lastDone_spec {l : List StreamEvent} {e : StreamEvent}
    (h : lastDone l = some e) :
    e.type = "done" ∧ truthyS e.thread_id = true := by
  induction l with
  | nil => simp [lastDone] at h
  | cons a as ih =>
    simp only [lastDone] at h
    rcases hr : lastDone as with _ | r
    · rw [hr] at h
      by_cases ha : a.type = "done" ∧ truthyS a.thread_id
      · simp only [ha, if_pos, and_true] at h
        cases h
        exact ⟨ha.1, ha.2⟩
      · simp [ha] at h
    · rw [hr] at h
      cases h
      exact ih hr

theorem stepEvent_threadId (aid : String) (st : LoopState) (e : StreamEvent) :
    (stepEvent aid st e).threadId =
      if e.type = "done" ∧ truthyS e.thread_id then e.thread_id
      else st.threadId := by
  unfold stepEvent
  split_ifs with h1 h2 h3 h4 h5 h6 h7 <;> first
    | rfl
    | (exfalso; simp_all)

theorem stepEvent_respPair (aid : String) (st : LoopState) (e : StreamEvent) :
    ((stepEvent aid st e).fullContent, (stepEvent aid st e).sources) =
      if e.type = "response" ∧ truthyS e.content then
        (e.content.getD "", e.sources.getD [])
      else (st.fullContent, st.sources) := by
  unfold stepEvent
  split_ifs with h1 h2 h3 h4 h5 h6 h7 <;> first
    | rfl
    | (exfalso; simp_all)

theorem stepEvent_msgIds (aid : String) (st : LoopState) (e : StreamEvent) :
    (stepEvent aid st e).messages.map Message.id =
      st.messages.map Message.id := by
  unfold stepEvent
  split_ifs <;> try rfl
  simp only [List.map_map]
  apply List.map_congr_left
  intro m _
  by_cases hm : m.id = aid <;> simp [hm]

/-- The loop runs the non-throwing steps over the prefix before the
first `"error"` event, then throws that event's message; without an
error event it runs to completion. -/
theorem runEvents_split (aid : String) (l : List StreamEvent) :
    ∀ st, runEvents aid st l =
      ((l.takeWhile fun e => !isError e).foldl (stepEvent aid) st,
       (l.find? isError).map fun e => jsOrElse e.message "Unknown error") := by
  induction l with
  | nil => intro st; simp [runEvents]
  | cons e es ih =>
    intro st
    by_cases he : e.type = "error"
    · have hb : isError e = true := by simp [isError, he]
      simp [runEvents, he, hb, List.takeWhile_cons_of_neg, List.foldl_nil]
    · have hb : isError e = false := by simp [isError, he]
      simp only [runEvents, he, if_false, ih]
      rw [List.takeWhile_cons_of_pos (by simp [hb]),
        List.find?_cons_of_neg _ (by simp [hb]), List.foldl_cons]

theorem foldl_respPair (aid : String) (l : List StreamEvent) :
    ∀ st, ((l.foldl (stepEvent aid) st).fullContent,
           (l.foldl (stepEvent aid) st).sources) =
      match lastResp l with
      | some e => (e.content.getD "", e.sources.getD [])
      | none => (st.fullContent, st.sources) := by
  induction l with
  | nil => intro st; simp [lastResp]
  | cons e es ih =>
    intro st
    rw [List.foldl_cons]
    rcases hr : lastResp es with _ | r
    · have := ih (stepEvent aid st e)
      rw [hr] at this
      simp only [lastResp, hr]
      rw [this, stepEvent_respPair]
      by_cases he : e.type = "response" ∧ truthyS e.content <;> simp [he]
    · have := ih (stepEvent aid st e)
      rw [hr] at this
      simp only [lastResp, hr]
      exact this

theorem foldl_threadId (aid : String) (l : List StreamEvent) :
    ∀ st, (l.foldl (stepEvent aid) st).threadId =
      match lastDone l with
      | some e => e.thread_id
      | none => st.threadId := by
  induction l with
  | nil => intro st; simp [lastDone]
  | cons e es ih =>
    intro st
    rw [List.foldl_cons]
    rcases hr : lastDone es with _ | r
    · have := ih (stepEvent aid st e)
      rw [hr] at this
      simp only [lastDone, hr]
      rw [this, stepEvent_threadId]
      by_cases he : e.type = "done" ∧ truthyS e.thread_id <;> simp [he]
    · have := ih (stepEvent aid st e)
      rw [hr] at this
      simp only [lastDone, hr]
      exact this

theorem foldl_msgIds (aid : String) (l : List StreamEvent) :
    ∀ st, (l.foldl (stepEvent aid) st).messages.map Message.id =
      st.messages.map Message.id := by
  induction l with
  | nil => intro st; rfl
  | cons e es ih =>
    intro st
    rw [List.foldl_cons, ih, stepEvent_msgIds]

end IntelliStream

namespace IntelliStream

/-- The request issued by the shared send body, independent of the event
stream outcome. -/
theorem sendCore_req (speed : String) (s : ChatState) (content : String)
    (attachments : Option (List Attachment)) (userId assistantId : String)
    (now : Nat) (events : List StreamEvent) :
    (sendCore speed s content attachments userId assistantId now events).2 =
      some (coreReq speed s content) := by
  simp only [sendCore]
  split <;> rfl

/-! ## Claim C1 -/

/-- Claim C1: whenever `sendMessage` issues a request, the conversation
history in that request is built only from the pre-send messages whose
role is user or assistant, keeps at most the `MAX_HISTORY = 20` most
recent of them in their original order (a suffix of the filtered list of
length `min filtered.length 20`), each entry's content is the first at
most 2000 characters of that message's content, and when no such
message exists the history field is omitted. -/
theorem sendMessage_history (speed : String) (s : ChatState)
    (content : String) (userId assistantId : String) (now : Nat)
    (events : List StreamEvent) (req : ChatRequest)
    (h : (sendMessage speed s content userId assistantId now events).2 =
      some req) :
    (s.messages.filter isUA = [] → req.history = none) ∧
    (s.messages.filter isUA ≠ [] → ∃ pre tail,
      s.messages.filter isUA = pre ++ tail ∧
      tail.length = min (s.messages.filter isUA).length MAX_HISTORY ∧
      req.history = some (tail.map fun m =>
        { role := roleString m.role, content := jsSlice m.content 2000 })) := by
  unfold sendMessage at h
  split at h
  · simp at h
  · rw [sendCore_req] at h
    cases h
    constructor
    · intro hfl
      simp [coreReq, buildHistory, hfl]
    · intro hfl
      refine ⟨(s.messages.filter isUA).take
          ((s.messages.filter isUA).length - MAX_HISTORY),
        (s.messages.filter isUA).drop
          ((s.messages.filter isUA).length - MAX_HISTORY),
        (List.take_append_drop _ _).symm, ?_, ?_⟩
      · rw [List.length_drop]
        omega
      · have hlen : 0 < (buildHistory s.messages).length := by
          have h1 : 0 < (s.messages.filter isUA).length :=
            List.length_pos.mpr hfl
          simp only [buildHistory, List.length_map, List.length_drop]
          unfold MAX_HISTORY
          omega
        simp only [coreReq, hlen, if_pos]
        rfl

/-- Concrete `sendMessage` call used to instantiate the hook-state
claims: one prior user message, idle hook state. -/
def witMsg : Message :=
  { id := "m0", role := Role.user, content := "hi", timestamp := 0 }

/-- An idle hook state holding only `witMsg`. -/
def witState : ChatState :=
  { messages := [witMsg], isLoading := false, error := none,
    threadId := none, agentStatus := initialAgentStatus }

/-- The request issued by `sendMessage` from `witState` with content
`"q"`. -/
def witReq : ChatRequest :=
  { message := "q", thread_id := none,
    history := some [{ role := "user", content := "hi" }],
    streaming_speed := "medium" }

/-- Concrete instantiation of `sendMessage_history`: a single prior user
message is sent as the whole history. -/
theorem sendMessage_history_witness :
    (witState.messages.filter isUA = [] → witReq.history = none) ∧
    (witState.messages.filter isUA ≠ [] → ∃ pre tail,
      witState.messages.filter isUA = pre ++ tail ∧
      tail.length = min (witState.messages.filter isUA).length MAX_HISTORY ∧
      witReq.history = some (tail.map fun m =>
        { role := roleString m.role, content := jsSlice m.content 2000 })) :=
  sendMessage_history "medium" witState "q" "u1" "a1" 0 [] witReq (by rfl)

end IntelliStream

namespace IntelliStream

/-! ## Small list helpers for the loop proofs -/

theorem takeWhile_pre {α : Type} (q : α → Bool) (pre : List α) (x : α)
    (l : List α) (hpre : ∀ a ∈ pre, q a = true) (hx : q x = false) :
    (pre ++ x :: l).takeWhile q = pre := by
  induction pre with
  | nil => simp [List.takeWhile_cons, hx]
  | cons a as ih =>
    rw [List.cons_append,
      List.takeWhile_cons_of_pos (hpre a (by simp)),
      ih fun b hb => hpre b (by simp [hb])]

theorem find?_pre {α : Type} (p : α → Bool) (pre : List α) (x : α)
    (l : List α) (hpre : ∀ a ∈ pre, p a = false) (hx : p x = true) :
    (pre ++ x :: l).find? p = some x := by
  induction pre with
  | nil => simp [hx]
  | cons a as ih =>
    rw [List.cons_append,
      List.find?_cons_of_neg _ (by simp [hpre a (by simp)]),
      ih fun b hb => hpre b (by simp [hb])]

theorem takeWhile_all {α : Type} (q : α → Bool) (l : List α)
    (h : ∀ a ∈ l, q a = true) : l.takeWhile q = l := by
  induction l with
  | nil => rfl
  | cons a as ih =>
    rw [List.takeWhile_cons_of_pos (h a (by simp)),
      ih fun b hb => h b (by simp [hb])]

theorem mem_takeWhile {α : Type} (q : α → Bool) (l : List α) (a : α)
    (h : a ∈ l.takeWhile q) : q a = true := by
  induction l with
  | nil => simp at h
  | cons b bs ih =>
    rw [List.takeWhile_cons] at h
    by_cases hb : q b = true
    · rw [if_pos hb] at h
      rcases List.mem_cons.mp h with h1 | h1
      · exact h1 ▸ hb
      · exact ih h1
    · rw [if_neg hb] at h
      simp at h

theorem set_self_of_getElem {α : Type} (l : List α) (n : Nat) (a : α)
    (h : l[n]? = some a) : l.set n a = l := by
  apply List.ext_getElem?
  intro j
  rw [List.getElem?_set]
  by_cases hj : n = j
  · subst hj
    have hn : n < l.length := by
      by_contra hc
      rw [List.getElem?_eq_none (by omega)] at h
      exact Option.noConfusion h
    simp [hn, h]
  · simp [hj]

/-! ## finalizeMessages structure lemmas -/

theorem finalizeMessages_shape (aid fc : String) (srcs : List Source)
    (now : Nat) (msgs : List Message) :
    ∀ m ∈ finalizeMessages aid fc srcs now msgs,
      m ∈ msgs.map (finalProps aid fc srcs) ∨
      ∃ u vs, u ∈ msgs.map (finalProps aid fc srcs) ∧
        m = { u with versions := vs } := by
  intro m hm
  simp only [finalizeMessages] at hm
  split at hm
  · exact Or.inl hm
  · split at hm
    · rename_i i hidx hpos
      split at hm
      · exact Or.inl hm
      · rename_i userMsg hget
        split at hm
        · exact Or.inl hm
        · rename_i vs hvs
          split at hm
          · split at hm
            · exact Or.inl hm
            · rename_i hcond lastVersion hlast
              rcases List.mem_or_eq_of_mem_set hm with h1 | h1
              · exact Or.inl h1
              · exact Or.inr ⟨userMsg, _, List.getElem?_mem hget, h1⟩
          · exact Or.inl hm
    · exact Or.inl hm

theorem finalizeMessages_ids (aid fc : String) (srcs : List Source)
    (now : Nat) (msgs : List Message) :
    (finalizeMessages aid fc srcs now msgs).map Message.id =
      msgs.map Message.id := by
  have hres : (msgs.map (finalProps aid fc srcs)).map Message.id =
      msgs.map Message.id := by
    rw [List.map_map]
    apply List.map_congr_left
    intro m _
    by_cases hm : m.id = aid <;> simp [finalProps, hm]
  simp only [finalizeMessages]
  split
  · exact hres
  · split
    · rename_i i hidx hpos
      split
      · exact hres
      · rename_i userMsg hget
        split
        · exact hres
        · rename_i vs hvs
          split
          · split
            · exact hres
            · rename_i hcond lastVersion hlast
              rw [List.map_set]
              have hid : ({ userMsg with
                  versions := some (vs.set (vs.length - 1)
                    { lastVersion with
                      response := some
                        { id := aid, content := fc,
                          sources := some srcs, timestamp := now } }) :
                  Message }).id = userMsg.id := rfl
              rw [hid, set_self_of_getElem _ _ _
                (by rw [List.getElem?_map, hget]; rfl)]
              exact hres
          · exact hres
    · exact hres

theorem finalizeMessages_assistant (aid fc : String) (srcs : List Source)
    (now : Nat) (msgs : List Message) :
    ∀ m ∈ finalizeMessages aid fc srcs now msgs, m.id = aid →
      m.content = fc ∧ m.sources = some srcs ∧ m.isStreaming = some false := by
  have hbase : ∀ m ∈ msgs.map (finalProps aid fc srcs), m.id = aid →
      m.content = fc ∧ m.sources = some srcs ∧ m.isStreaming = some false := by
    intro m hm hid
    rcases List.mem_map.mp hm with ⟨x, _, rfl⟩
    by_cases hx : x.id = aid
    · simp [finalProps, hx]
    · simp only [finalProps, hx, if_false] at hid
  intro m hm hid
  rcases finalizeMessages_shape aid fc srcs now msgs m hm with h1 | ⟨u, vs, hu, rfl⟩
  · exact hbase m h1 hid
  · have := hbase u hu hid
    exact this

end IntelliStream

namespace IntelliStream

/-- `sendCore` when the stream has an error event: the catch-block state
built from the prefix before the first error event, and the thrown
message. -/
theorem sendCore_of_error (speed : String) (s : ChatState) (content : String)
    (att : Option (List Attachment)) (uid aid : String) (now : Nat)
    (events : List StreamEvent) (e0 : StreamEvent)
    (hfind : events.find? isError = some e0) :
    sendCore speed s content att uid aid now events =
      (errorState aid
        ((events.takeWhile fun e => !isError e).foldl (stepEvent aid)
          (loopInit s content att uid aid now))
        (jsOrElse e0.message "Unknown error"),
       some (coreReq speed s content)) := by
  simp only [sendCore]
  rw [runEvents_split aid events, hfind]
  rfl

/-- `sendCore` when the stream has no error event: the success state of
the full fold. -/
theorem sendCore_of_noError (speed : String) (s : ChatState) (content : String)
    (att : Option (List Attachment)) (uid aid : String) (now : Nat)
    (events : List StreamEvent)
    (hfind : events.find? isError = none) :
    sendCore speed s content att uid aid now events =
      (successState aid now
        ((events.takeWhile fun e => !isError e).foldl (stepEvent aid)
          (loopInit s content att uid aid now)),
       some (coreReq speed s content)) := by
  simp only [sendCore]
  rw [runEvents_split aid events, hfind]
  rfl

/-- When the guard passes, `sendMessage` is the shared body without
attachments. -/
theorem sendMessage_eq_core (speed : String) (s : ChatState)
    (content : String) (uid aid : String) (now : Nat)
    (events : List StreamEvent)
    (hc : (jsTrim content).isEmpty = false) (hl : s.isLoading = false) :
    sendMessage speed s content uid aid now events =
      sendCore speed s content none uid aid now events := by
  simp [sendMessage, hc, hl]

/-- The placeholder assistant id is among the loop state's message ids
whenever the loop starts from `loopInit`. -/
theorem foldl_mem_assistant (aid : String) (l : List StreamEvent)
    (s : ChatState) (content : String) (att : Option (List Attachment))
    (uid : String) (now : Nat) :
    ∃ m ∈ (l.foldl (stepEvent aid)
      (loopInit s content att uid aid now)).messages, m.id = aid := by
  have hids := foldl_msgIds aid l (loopInit s content att uid aid now)
  have hmem : aid ∈ (l.foldl (stepEvent aid)
      (loopInit s content att uid aid now)).messages.map Message.id := by
    rw [hids]
    simp [loopInit]
  rcases List.mem_map.mp hmem with ⟨m, hm, hmid⟩
  exact ⟨m, hm, hmid⟩

end IntelliStream

namespace IntelliStream

/-! ## Claim C3 (amended) -/

/-- Claim C3 (amended): when the consumed stream contains an event of
type `"error"`, consumption stops at the first such event (whatever
follows it has no effect on the outcome), the hook's error state is set
to that event's message — or `"Unknown error"` when the message field is
absent *or empty* —, the pending assistant message's content is
rewritten to `"Error: "` followed by that message with `isStreaming`
false, and `isLoading` is false on return; a stream without an error
event never produces an error payload. -/
theorem sendMessage_error_event (speed : String) (s : ChatState)
    (content : String) (uid aid : String) (now : Nat)
    (events : List StreamEvent) (e0 : StreamEvent)
    (hc : (jsTrim content).isEmpty = false) (hl : s.isLoading = false)
    (hfind : events.find? isError = some e0) :
    ((sendMessage speed s content uid aid now events).1.error =
      some (jsOrElse e0.message "Unknown error")) ∧
    ((sendMessage speed s content uid aid now events).1.isLoading = false) ∧
    (∃ m ∈ (sendMessage speed s content uid aid now events).1.messages,
      m.id = aid) ∧
    (∀ m ∈ (sendMessage speed s content uid aid now events).1.messages,
      m.id = aid →
        m.content = "Error: " ++ jsOrElse e0.message "Unknown error" ∧
        m.isStreaming = some false) ∧
    (∀ rest : List StreamEvent,
      sendMessage speed s content uid aid now
        ((events.takeWhile fun e => !isError e) ++ e0 :: rest) =
      sendMessage speed s content uid aid now events) ∧
    (∀ events2 : List StreamEvent, events2.find? isError = none →
      (sendMessage speed s content uid aid now events2).1.error = none) := by
  rw [sendMessage_eq_core speed s content uid aid now events hc hl,
    sendCore_of_error speed s content none uid aid now events e0 hfind]
  refine ⟨rfl, rfl, ?_, ?_, ?_, ?_⟩
  · rcases foldl_mem_assistant aid (events.takeWhile fun e => !isError e)
        s content none uid now with ⟨m, hm, hmid⟩
    refine ⟨if m.id = aid then
        { m with content := "Error: " ++ jsOrElse e0.message "Unknown error",
                 isStreaming := some false } else m, ?_, ?_⟩
    · exact List.mem_map_of_mem _ hm
    · simp [hmid]
  · intro m hm hmid
    rcases List.mem_map.mp hm with ⟨x, _, rfl⟩
    by_cases hx : x.id = aid
    · simp [hx]
    · simp only [hx, if_false] at hmid
  · intro rest
    have hall : ∀ a ∈ (events.takeWhile fun e => !isError e),
        (fun e => !isError e) a = true :=
      fun a ha => mem_takeWhile _ events a ha
    have he0 : isError e0 = true := List.find?_some hfind
    have hfind2 : ((events.takeWhile fun e => !isError e) ++ e0 :: rest).find?
        isError = some e0 :=
      find?_pre isError _ e0 rest
        (fun a ha => by simpa using hall a ha) he0
    have htw : ((events.takeWhile fun e => !isError e) ++ e0 :: rest).takeWhile
        (fun e => !isError e) = events.takeWhile fun e => !isError e :=
      takeWhile_pre _ _ e0 rest hall (by simp [he0])
    rw [sendMessage_eq_core speed s content uid aid now _ hc hl,
      sendCore_of_error speed s content none uid aid now _ e0 hfind2, htw]
  · intro events2 h2
    rw [sendMessage_eq_core speed s content uid aid now events2 hc hl,
      sendCore_of_noError speed s content none uid aid now events2 h2]
    rfl

/-- Counterexample to claim C3 as stated: an error event whose `message`
field is present but empty.  The claim requires the hook's error state
to equal the event's message (the empty string); the code's
`event.data?.message || "Unknown error"` treats the empty string as
falsy and stores `"Unknown error"` instead. -/
theorem sendMessage_error_empty_message_cex :
    (sendMessage "medium" witState "q" "u1" "a1" 0
        [{ type := "error", message := some "" }]).1.error =
      some "Unknown error" ∧ ("Unknown error" : String) ≠ "" :=
  ⟨rfl, by decide⟩

/-- Concrete instantiation of `sendMessage_error_event`: a stream whose
second event throws `"boom"`. -/
theorem sendMessage_error_event_witness :
    (sendMessage "medium" witState "q" "u1" "a1" 0
        [{ type := "agent_status", agent := some "router",
           status := some "started" },
         { type := "error", message := some "boom" }]).1.error =
      some "boom" :=
  (sendMessage_error_event "medium" witState "q" "u1" "a1" 0
    [{ type := "agent_status", agent := some "router",
       status := some "started" },
     { type := "error", message := some "boom" }]
    { type := "error", message := some "boom" }
    (by decide) rfl (by rfl)).1

end IntelliStream

namespace IntelliStream

/-! ## Claim C4 (amended) -/

/-- Claim C4 (amended): when the consumed stream has no error event and
contains at least one `"response"` event carrying a non-empty content
field, the final assistant message's content equals the content of the
*last such* response event, its sources equal that event's sources field
(the empty list when absent), and its `isStreaming` flag is false; token
events never affect the final message. -/
theorem sendMessage_response_final (speed : String) (s : ChatState)
    (content : String) (uid aid : String) (now : Nat)
    (events : List StreamEvent) (e0 : StreamEvent)
    (hc : (jsTrim content).isEmpty = false) (hl : s.isLoading = false)
    (hnoerr : events.find? isError = none)
    (hresp : lastResp events = some e0) :
    ((sendMessage speed s content uid aid now events).1.error = none) ∧
    ((sendMessage speed s content uid aid now events).1.isLoading = false) ∧
    (∃ m ∈ (sendMessage speed s content uid aid now events).1.messages,
      m.id = aid) ∧
    (∀ m ∈ (sendMessage speed s content uid aid now events).1.messages,
      m.id = aid →
        m.content = e0.content.getD "" ∧
        m.sources = some (e0.sources.getD []) ∧
        m.isStreaming = some false) := by
  have htw : events.takeWhile (fun e => !isError e) = events :=
    takeWhile_all _ events fun a ha => by
      simp [List.find?_eq_none.mp hnoerr a ha]
  rw [sendMessage_eq_core speed s content uid aid now events hc hl,
    sendCore_of_noError speed s content none uid aid now events hnoerr, htw]
  have hpair := foldl_respPair aid events
    (loopInit s content none uid aid now)
  rw [hresp] at hpair
  have hfc : (events.foldl (stepEvent aid)
      (loopInit s content none uid aid now)).fullContent =
      e0.content.getD "" := congrArg Prod.fst hpair
  have hsrc : (events.foldl (stepEvent aid)
      (loopInit s content none uid aid now)).sources =
      e0.sources.getD [] := congrArg Prod.snd hpair
  refine ⟨rfl, rfl, ?_, ?_⟩
  · have hids := finalizeMessages_ids aid
      (events.foldl (stepEvent aid) (loopInit s content none uid aid now)).fullContent
      (events.foldl (stepEvent aid) (loopInit s content none uid aid now)).sources
      now
      (events.foldl (stepEvent aid) (loopInit s content none uid aid now)).messages
    have hmem : aid ∈ (successState aid now
        (events.foldl (stepEvent aid)
          (loopInit s content none uid aid now))).messages.map Message.id := by
      simp only [successState, hids, foldl_msgIds]
      simp [loopInit]
    rcases List.mem_map.mp hmem with ⟨m, hm, hmid⟩
    exact ⟨m, hm, hmid⟩
  · intro m hm hmid
    have := finalizeMessages_assistant aid
      (events.foldl (stepEvent aid) (loopInit s content none uid aid now)).fullContent
      (events.foldl (stepEvent aid) (loopInit s content none uid aid now)).sources
      now
      (events.foldl (stepEvent aid) (loopInit s content none uid aid now)).messages
      m hm hmid
    rw [hfc, hsrc] at this
    exact this

/-- Counterexample to claim C4 as stated: the last response event
carries an empty content field.  The claim requires the final assistant
content (and sources) to come from that last response event; the code's
`event.data?.content` guard treats the empty string as falsy, skips the
event entirely, and keeps the previous response's content and sources. -/
theorem sendMessage_response_empty_content_cex :
    ((sendMessage "medium" witState "q" "u1" "a1" 0
        [{ type := "response", content := some "abc" },
         { type := "response", content := some "",
           sources := some [{ id := "s1", title := "T", snippet := "x",
                              score := 1 }] }]).1.messages.map
      fun m => (m.id, m.content, m.sources)) =
      [("m0", "hi", none), ("u1", "q", none),
       ("a1", "abc", some [])] ∧ ("abc" : String) ≠ "" :=
  ⟨rfl, by decide⟩

/-- Concrete instantiation of `sendMessage_response_final` at a
one-response stream. -/
theorem sendMessage_response_final_witness :
    ((sendMessage "medium" witState "q" "u1" "a1" 0
        [{ type := "response", content := some "hello!",
           sources := some [{ id := "s1", title := "T", snippet := "x",
                              score := 1 }] }]).1.error = none) ∧
    ((sendMessage "medium" witState "q" "u1" "a1" 0
        [{ type := "response", content := some "hello!",
           sources := some [{ id := "s1", title := "T", snippet := "x",
                              score := 1 }] }]).1.isLoading = false) ∧
    (∃ m ∈ (sendMessage "medium" witState "q" "u1" "a1" 0
        [{ type := "response", content := some "hello!",
           sources := some [{ id := "s1", title := "T", snippet := "x",
                              score := 1 }] }]).1.messages, m.id = "a1") ∧
    (∀ m ∈ (sendMessage "medium" witState "q" "u1" "a1" 0
        [{ type := "response", content := some "hello!",
           sources := some [{ id := "s1", title := "T", snippet := "x",
                              score := 1 }] }]).1.messages, m.id = "a1" →
      m.content = (some "hello!").getD "" ∧
      m.sources = some ((some [{ id := "s1", title := "T", snippet := "x",
                                 score := 1 }]).getD []) ∧
      m.isStreaming = some false) :=
  sendMessage_response_final "medium" witState "q" "u1" "a1" 0
    [{ type := "response", content := some "hello!",
       sources := some [{ id := "s1", title := "T", snippet := "x",
                          score := 1 }] }]
    { type := "response", content := some "hello!",
      sources := some [{ id := "s1", title := "T", snippet := "x",
                         score := 1 }] }
    (by decide) rfl (by rfl) (by rfl)

end IntelliStream

namespace IntelliStream

/-! ## Claim C6 (amended) -/

/-- Claim C6 (amended): for every event of type `"agent_status"` whose
data carries a *non-empty* agent field, exactly that agent's entry of
the agent-status map is updated — to `"running"` when the status field
equals `"started"` and to `"completed"` for every other status value —
while every other entry, and every other component of the loop state, is
left unchanged. -/
theorem stepEvent_agent_status (aid : String) (st : LoopState)
    (e : StreamEvent) (a : String)
    (hty : e.type = "agent_status") (ha : e.agent = some a) (hne : a ≠ "") :
    (∀ k, (stepEvent aid st e).agentStatus k =
      if k = a then
        some (if e.status = some "started" then "running" else "completed")
      else st.agentStatus k) ∧
    (stepEvent aid st e).messages = st.messages ∧
    (stepEvent aid st e).threadId = st.threadId ∧
    (stepEvent aid st e).fullContent = st.fullContent ∧
    (stepEvent aid st e).sources = st.sources := by
  have hae : a.isEmpty = false := by
    rcases h : a.isEmpty with _ | _
    · rfl
    · exact absurd ((String.isEmpty_iff a).mp h) hne
  have htr : truthyS e.agent = true := by simp [truthyS, ha, hae]
  have hcond : e.type = "agent_status" ∧ truthyS e.agent := ⟨hty, htr⟩
  refine ⟨?_, ?_, ?_, ?_, ?_⟩ <;>
    simp [stepEvent, hcond, jsObjectSet, ha, truthyS, hae]

/-- The loop state used to instantiate the per-event claims. -/
def csSt : LoopState :=
  { messages := [], agentStatus := initialAgentStatus, threadId := none,
    fullContent := "", sources := [] }

/-- Counterexample to claim C6 as stated: an `agent_status` event whose
data carries an agent field holding the empty string.  The claim
requires that agent's entry to be set to `"running"`; the code's
`event.data?.agent` guard treats the empty string as falsy and ignores
the event, leaving the whole map unchanged (the entry stays absent). -/
theorem stepEvent_empty_agent_cex :
    stepEvent "a1" csSt
        { type := "agent_status", agent := some "", status := some "started" } =
      csSt ∧
    csSt.agentStatus "" ≠ some "running" :=
  ⟨rfl, by decide⟩

/-- Concrete instantiation of `stepEvent_agent_status` at a started
`research` event. -/
theorem stepEvent_agent_status_witness :
    (∀ k, (stepEvent "a1" csSt
        { type := "agent_status", agent := some "research",
          status := some "started" }).agentStatus k =
      if k = "research" then some "running"
      else csSt.agentStatus k) ∧
    (stepEvent "a1" csSt
        { type := "agent_status", agent := some "research",
          status := some "started" }).messages = csSt.messages ∧
    (stepEvent "a1" csSt
        { type := "agent_status", agent := some "research",
          status := some "started" }).threadId = csSt.threadId ∧
    (stepEvent "a1" csSt
        { type := "agent_status", agent := some "research",
          status := some "started" }).fullContent = csSt.fullContent ∧
    (stepEvent "a1" csSt
        { type := "agent_status", agent := some "research",
          status := some "started" }).sources = csSt.sources :=
  stepEvent_agent_status "a1" csSt
    { type := "agent_status", agent := some "research",
      status := some "started" } "research" rfl rfl (by decide)

end IntelliStream

namespace IntelliStream

/-! ## Claim C7 (amended) -/

/-- Claim C7 (amended): when the consumed stream contains, before any
error event, a `"done"` event carrying a non-empty thread id, the hook's
`threadId` state after the call equals the thread id of the last such
event, and the next `sendMessage` call made from the resulting state
(with non-blank content) includes that thread id in its request body. -/
theorem sendMessage_done_threadId (speed : String) (s : ChatState)
    (content : String) (uid aid : String) (now : Nat)
    (events : List StreamEvent) (d : StreamEvent) (t : String)
    (hc : (jsTrim content).isEmpty = false) (hl : s.isLoading = false)
    (hdone : lastDone (events.takeWhile fun e => !isError e) = some d)
    (ht : d.thread_id = some t) :
    ((sendMessage speed s content uid aid now events).1.threadId = some t) ∧
    (∀ (c2 u2 a2 : String) (n2 : Nat) (ev2 : List StreamEvent),
      (jsTrim c2).isEmpty = false →
      ((sendMessage speed (sendMessage speed s content uid aid now events).1
          c2 u2 a2 n2 ev2).2).map ChatRequest.thread_id = some (some t)) := by
  have hte : t.isEmpty = false := by
    have := (lastDone_spec hdone).2
    rw [ht] at this
    simpa [truthyS] using this
  have hthread : (sendMessage speed s content uid aid now events).1.threadId =
      some t := by
    rw [sendMessage_eq_core speed s content uid aid now events hc hl]
    have hfold : ((events.takeWhile fun e => !isError e).foldl (stepEvent aid)
        (loopInit s content none uid aid now)).threadId = some t := by
      rw [foldl_threadId aid _ (loopInit s content none uid aid now), hdone]
      exact ht
    rcases hfe : events.find? isError with _ | e0
    · rw [sendCore_of_noError speed s content none uid aid now events hfe]
      exact hfold
    · rw [sendCore_of_error speed s content none uid aid now events e0 hfe]
      exact hfold
  have hload : (sendMessage speed s content uid aid now events).1.isLoading =
      false := by
    rw [sendMessage_eq_core speed s content uid aid now events hc hl]
    rcases hfe : events.find? isError with _ | e0
    · rw [sendCore_of_noError speed s content none uid aid now events hfe]
      rfl
    · rw [sendCore_of_error speed s content none uid aid now events e0 hfe]
      rfl
  refine ⟨hthread, ?_⟩
  intro c2 u2 a2 n2 ev2 hc2
  rw [sendMessage_eq_core speed _ c2 u2 a2 n2 ev2 hc2 hload, sendCore_req]
  simp [coreReq, hthread, jsOrUndef, hte]

/-- Counterexample to claim C7 as stated, one concrete instance per
divergence the code exhibits:

1. a `done` event carrying `"T1"` but preceded by an error event is
   never processed (the loop stops at the error), so `threadId` stays
   `none`, not `"T1"`;
2. a `done` event whose `thread_id` is present but empty is ignored by
   the `event.data?.thread_id` truthiness guard, so `threadId` stays
   `none`, not `""`;
3. with two `done` events `"T1"` then `"T2"` the later one wins, so for
   the carried id `"T1"` the final `threadId` is `"T2"`, not `"T1"`;
4. after a first call whose stream carries `done "T1"`, a *subsequent*
   `sendMessage` call whose own stream carries `done "T2"` leaves the
   hook at `"T2"`, so the call after that one issues its request with
   `thread_id "T2"` — not every subsequent call includes `"T1"`. -/
theorem sendMessage_done_after_error_cex :
    ((sendMessage "medium" witState "q" "u1" "a1" 0
        [{ type := "error", message := some "boom" },
         { type := "done", thread_id := some "T1" }]).1.threadId = none ∧
      (none : Option String) ≠ some "T1") ∧
    ((sendMessage "medium" witState "q" "u1" "a1" 0
        [{ type := "done", thread_id := some "" }]).1.threadId = none ∧
      (none : Option String) ≠ some "") ∧
    ((sendMessage "medium" witState "q" "u1" "a1" 0
        [{ type := "done", thread_id := some "T1" },
         { type := "done", thread_id := some "T2" }]).1.threadId =
        some "T2" ∧
      some "T2" ≠ some "T1") ∧
    (((sendMessage "medium"
        (sendMessage "medium"
          (sendMessage "medium" witState "q" "u1" "a1" 0
            [{ type := "done", thread_id := some "T1" }]).1
          "r" "u2" "a2" 0
          [{ type := "done", thread_id := some "T2" }]).1
        "s" "u3" "a3" 0 []).2).map ChatRequest.thread_id =
        some (some "T2") ∧
      some (some "T2") ≠ some (some "T1")) :=
  ⟨⟨rfl, by decide⟩, ⟨rfl, by decide⟩, ⟨rfl, by decide⟩, ⟨rfl, by decide⟩⟩

/-- Concrete instantiation of `sendMessage_done_threadId` at a
one-event `done` stream. -/
theorem sendMessage_done_threadId_witness :
    ((sendMessage "medium" witState "q" "u1" "a1" 0
        [{ type := "done", thread_id := some "T9" }]).1.threadId =
      some "T9") ∧
    (∀ (c2 u2 a2 : String) (n2 : Nat) (ev2 : List StreamEvent),
      (jsTrim c2).isEmpty = false →
      ((sendMessage "medium"
          (sendMessage "medium" witState "q" "u1" "a1" 0
            [{ type := "done", thread_id := some "T9" }]).1
          c2 u2 a2 n2 ev2).2).map ChatRequest.thread_id = some (some "T9")) :=
  sendMessage_done_threadId "medium" witState "q" "u1" "a1" 0
    [{ type := "done", thread_id := some "T9" }]
    { type := "done", thread_id := some "T9" } "T9"
    (by decide) rfl (by rfl) rfl

end IntelliStream

namespace IntelliStream

/-! ## Claim C5: the Reflection revision loop

The backend orchestrator and Reflection agent (`agents/reflection.py`
and the LangGraph workflow wiring) are not part of the frontend sources;
only their documentation and callers are available.  The loop is
therefore modelled from the spec. -/

/-- Reflection's verdict. -/
inductive Verdict where
  | approve
  | revise
deriving DecidableEq, Repr

/-- Modelled from the spec: the Reflection stage's verdict
(`reflect(draft, analysis, query) -> {verdict, critique?}`, section
4.5).  `deficient` abstracts the four quality checks on the current
draft; `revise` is returned only while `reflectionPassCount <
MAX_REFLECTION_PASSES`; once the bound is reached the stage approves
regardless of remaining deficiencies. -/
def reflectVerdict (deficient : Bool) (passCount maxPasses : Nat) : Verdict :=
  if passCount < maxPasses ∧ deficient = true then Verdict.revise
  else Verdict.approve

/-- Modelled from the spec: the Reflection→Synthesis revision loop of
the orchestrator (sections 3 and 4.5).  `reflectionPassCount` starts at
the given value (0 for a fresh pipeline run) and is incremented once per
loop iteration; the loop re-enters Synthesis exactly while Reflection
returns `revise`, and returns the final pass count.  `deficient n` tells
whether the draft produced on pass `n` still fails a quality check. -/
def runReflection (deficient : Nat → Bool) (maxPasses passCount : Nat) :
    Nat :=
  if h : passCount < maxPasses ∧ deficient passCount = true then
    runReflection deficient maxPasses (passCount + 1)
  else passCount
termination_by maxPasses - passCount
decreasing_by
  have h1 := h.1
  omega

/-- The loop guard is exactly a `revise` verdict from Reflection. -/
theorem runReflection_guard_iff (d : Bool) (passCount maxPasses : Nat) :
    (passCount < maxPasses ∧ d = true) ↔
      reflectVerdict d passCount maxPasses = Verdict.revise := by
  unfold reflectVerdict
  by_cases h : passCount < maxPasses ∧ d = true <;> simp [h]

theorem runReflection_le (deficient : Nat → Bool) (maxPasses passCount : Nat)
    (h : passCount ≤ maxPasses) :
    runReflection deficient maxPasses passCount ≤ maxPasses := by
  unfold runReflection
  split
  · rename_i hcond
    exact runReflection_le deficient maxPasses (passCount + 1)
      (by have h1 := hcond.1; omega)
  · exact h
termination_by maxPasses - passCount
decreasing_by
  rename_i hcond
  have h1 := hcond.1
  omega

/-- Claim C5: in every pipeline execution the revision loop, started at
`reflectionPassCount = 0`, terminates (it is a total function) with a
final pass count that never exceeds `MAX_REFLECTION_PASSES`, and once
the bound is reached Reflection returns `approve` regardless of
remaining deficiencies. -/
theorem reflection_bounded (deficient : Nat → Bool) (maxPasses : Nat) :
    runReflection deficient maxPasses 0 ≤ maxPasses ∧
    (∀ d : Bool, reflectVerdict d maxPasses maxPasses = Verdict.approve) := by
  refine ⟨runReflection_le deficient maxPasses 0 (Nat.zero_le _), ?_⟩
  intro d
  simp [reflectVerdict]

end IntelliStream

namespace IntelliStream

/-! ## navigateVersion (useChat.ts) -/

inductive Direction where
  | prev
  | next
deriving DecidableEq, Repr

/-- The new version index: `Math.max(0, i - 1)` for `"prev"` (natural
subtraction), `Math.min(len - 1, i + 1)` for `"next"`. -/
def navTarget : Direction → Nat → Nat → Nat
  | .prev, i, _ => i - 1
  | .next, i, len => min (len - 1) (i + 1)

/-- The rebuild loop inside `setMessages`: copy messages through; at the
target id push the user message updated from the target version, and if
the next message is an assistant message replace it by the version's
stored response (or drop it when the version has none, via `skipNext`). -/
def rebuildMessages (messageId : String) (tv : MessageVersion) (ni : Nat) :
    List Message → List Message
  | [] => []
  | msg :: rest =>
    if msg.id = messageId then
      let newMsg : Message :=
        { msg with content := tv.content, timestamp := tv.timestamp,
                   currentVersionIndex := some ni }
      match rest with
      | [] => [newMsg]
      | nxt :: rest2 =>
        if nxt.role = Role.assistant then
          match tv.response with
          | some r =>
            newMsg ::
              { nxt with id := r.id, content := r.content,
                         sources := r.sources, timestamp := r.timestamp } ::
              rebuildMessages messageId tv ni rest2
          | none => newMsg :: rebuildMessages messageId tv ni rest2
        else newMsg :: rebuildMessages messageId tv ni (nxt :: rest2)
    else msg :: rebuildMessages messageId tv ni rest

/-- `navigateVersion` from useChat.ts: find the target message, return
unchanged when it is missing, has at most one version, or the move does
not change the index; otherwise rebuild the list from the target
version.  `none` models the TypeScript crash (`targetVersion` is
`undefined` and its fields are read) when the new index is out of
range. -/
def navigateVersion (messages : List Message) (messageId : String)
    (direction : Direction) : Option (List Message) :=
  match (messages.findIdx? fun m => m.id = messageId).bind
      (fun i => messages[i]?) with
  | none => some messages
  | some message =>
    match message.versions with
    | none => some messages
    | some versions =>
      if versions.length ≤ 1 then some messages
      else
        let currentIndex :=
          message.currentVersionIndex.getD (versions.length - 1)
        let newIndex := navTarget direction currentIndex versions.length
        if newIndex = currentIndex then some messages
        else
          match versions[newIndex]? with
          | none => none
          | some targetVersion =>
            some (rebuildMessages messageId targetVersion newIndex messages)

/-! ### rebuild lemmas -/

/-- Unfolding `rebuildMessages` past a non-matching message. -/
theorem rebuildMessages_cons_ne (mid : String) (tv : MessageVersion)
    (ni : Nat) (msg : Message) (rest : List Message) (h : ¬msg.id = mid) :
    rebuildMessages mid tv ni (msg :: rest) =
      msg :: rebuildMessages mid tv ni rest := by
  rw [rebuildMessages.eq_def]
  simp [h]

theorem rebuildMessages_nomatch (mid : String) (tv : MessageVersion)
    (ni : Nat) (l : List Message) (h : ∀ x ∈ l, x.id ≠ mid) :
    rebuildMessages mid tv ni l = l := by
  induction l with
  | nil => rfl
  | cons a as ih =>
    rw [rebuildMessages_cons_ne mid tv ni a as (h a (by simp)),
      ih fun x hx => h x (by simp [hx])]

theorem rebuildMessages_pre (mid : String) (tv : MessageVersion) (ni : Nat)
    (pre rest : List Message) (h : ∀ x ∈ pre, x.id ≠ mid) :
    rebuildMessages mid tv ni (pre ++ rest) =
      pre ++ rebuildMessages mid tv ni rest := by
  induction pre with
  | nil => simp
  | cons a as ih =>
    rw [List.cons_append,
      rebuildMessages_cons_ne mid tv ni a _ (h a (by simp)),
      ih fun x hx => h x (by simp [hx]), List.cons_append]

/-! ### uniqueness decomposition -/

theorem unique_split (l : List Message) (mid : String)
    (hu : (l.filter fun m => m.id = mid).length ≤ 1)
    (m : Message) (hm : m ∈ l) (hid : m.id = mid) :
    ∃ pre suf, l = pre ++ m :: suf ∧ (∀ x ∈ pre, x.id ≠ mid) ∧
      (∀ x ∈ suf, x.id ≠ mid) := by
  induction l with
  | nil => simp at hm
  | cons a as ih =>
    rcases List.mem_cons.mp hm with rfl | hm2
    · refine ⟨[], as, rfl, by simp, ?_⟩
      intro x hx hxid
      have : 2 ≤ ((m :: as).filter fun q => q.id = mid).length := by
        rw [List.filter_cons_of_pos (by simp [hid])]
        have hxmem : x ∈ as.filter fun q => q.id = mid :=
          List.mem_filter.mpr ⟨hx, by simp [hxid]⟩
        have := List.length_pos.mpr (List.ne_nil_of_mem hxmem)
        simp only [List.length_cons]
        omega
      omega
    · have ha : ¬a.id = mid := by
        intro haid
        have hxmem : m ∈ as.filter fun q => q.id = mid :=
          List.mem_filter.mpr ⟨hm2, by simp [hid]⟩
        have h1 := List.length_pos.mpr (List.ne_nil_of_mem hxmem)
        rw [List.filter_cons_of_pos (by simp [haid])] at hu
        simp only [List.length_cons] at hu
        omega
      have hu2 : (as.filter fun q => q.id = mid).length ≤ 1 := by
        rw [List.filter_cons_of_neg (by simp [ha])] at hu
        exact hu
      rcases ih hu2 hm2 with ⟨pre, suf, rfl, hpre, hsuf⟩
      exact ⟨a :: pre, suf, rfl, by
        intro x hx
        rcases List.mem_cons.mp hx with rfl | hx2
        · exact ha
        · exact hpre x hx2, hsuf⟩

theorem findIdx?_pre {α : Type} (p : α → Bool) (pre : List α) (x : α)
    (suf : List α) (hpre : ∀ a ∈ pre, p a = false) (hx : p x = true) :
    (pre ++ x :: suf).findIdx? p = some pre.length := by
  induction pre with
  | nil => simp [List.findIdx?_cons, hx]
  | cons a as ih =>
    rw [List.cons_append, List.findIdx?_cons, hpre a (by simp)]
    rw [if_neg (by simp), List.findIdx?_start_succ,
      ih fun b hb => hpre b (by simp [hb])]
    rfl

theorem getElem?_mid {α : Type} (pre : List α) (x : α) (suf : List α) :
    (pre ++ x :: suf)[pre.length]? = some x := by
  induction pre with
  | nil => simp
  | cons a as ih => simpa using ih

end IntelliStream

namespace IntelliStream

/-- Unfolding `rebuildMessages` at the (unique) target message: the
target is updated from the version, and a directly following assistant
message is replaced by the version's stored response or dropped. -/
theorem rebuildMessages_target (mid : String) (tv : MessageVersion)
    (ni : Nat) (m : Message) (suf : List Message)
    (hid : m.id = mid) (hsuf : ∀ x ∈ suf, x.id ≠ mid) :
    rebuildMessages mid tv ni (m :: suf) =
      { m with content := tv.content, timestamp := tv.timestamp,
               currentVersionIndex := some ni } ::
      (match suf with
       | [] => []
       | nxt :: rest2 =>
         if nxt.role = Role.assistant then
           (match tv.response with
            | some r =>
              { nxt with id := r.id, content := r.content,
                         sources := r.sources, timestamp := r.timestamp } ::
                rest2
            | none => rest2)
         else nxt :: rest2) := by
  rw [rebuildMessages.eq_def]
  cases suf with
  | nil => simp [hid]
  | cons nxt rest2 =>
    have hrest2 : ∀ x ∈ rest2, x.id ≠ mid :=
      fun x hx => hsuf x (by simp [hx])
    by_cases hrole : nxt.role = Role.assistant
    · cases hresp : tv.response with
      | some r =>
        simp [hid, hrole, hresp, rebuildMessages_nomatch mid tv ni rest2 hrest2]
      | none =>
        simp [hid, hrole, hresp, rebuildMessages_nomatch mid tv ni rest2 hrest2]
    · simp [hid, hrole,
        rebuildMessages_nomatch mid tv ni (nxt :: rest2) hsuf]

/-! ## Claim C10 (amended) -/

/-- Claim C10 (amended): for every message list whose target id occurs
at most once and whose target's `currentVersionIndex`, when present, is
within its version list, and for every `navigateVersion` call: if the
target message does not exist, does not have at least two versions, or
the move would leave the index unchanged, the list is returned
unchanged; otherwise the target's `currentVersionIndex` after the call
is the clamped new index (within `[0, versions.length - 1]`), only the
target message and the assistant message immediately following it are
modified, and all other messages are unchanged. -/
theorem navigateVersion_spec (messages : List Message) (messageId : String)
    (dir : Direction)
    (huniq : (messages.filter fun m => m.id = messageId).length ≤ 1)
    (hrange : ∀ m ∈ messages, m.id = messageId →
      ∀ ci, m.currentVersionIndex = some ci →
        ci < (m.versions.getD []).length) :
    ((∀ m ∈ messages, m.id ≠ messageId) →
      navigateVersion messages messageId dir = some messages) ∧
    (∀ m ∈ messages, m.id = messageId →
      ((m.versions.getD []).length ≤ 1 →
        navigateVersion messages messageId dir = some messages) ∧
      (∀ vs, m.versions = some vs → 2 ≤ vs.length →
        (navTarget dir (m.currentVersionIndex.getD (vs.length - 1))
            vs.length = m.currentVersionIndex.getD (vs.length - 1) →
          navigateVersion messages messageId dir = some messages) ∧
        (navTarget dir (m.currentVersionIndex.getD (vs.length - 1))
            vs.length ≠ m.currentVersionIndex.getD (vs.length - 1) →
          navTarget dir (m.currentVersionIndex.getD (vs.length - 1))
            vs.length < vs.length ∧
          ∃ pre suf tv,
            messages = pre ++ m :: suf ∧
            (∀ x ∈ pre, x.id ≠ messageId) ∧
            vs[navTarget dir (m.currentVersionIndex.getD (vs.length - 1))
              vs.length]? = some tv ∧
            navigateVersion messages messageId dir = some (pre ++
              { m with content := tv.content, timestamp := tv.timestamp,
                       currentVersionIndex :=
                         some (navTarget dir
                           (m.currentVersionIndex.getD (vs.length - 1))
                           vs.length) } ::
              (match suf with
               | [] => []
               | nxt :: rest2 =>
                 if nxt.role = Role.assistant then
                   (match tv.response with
                    | some r =>
                      { nxt with id := r.id, content := r.content,
                                 sources := r.sources,
                                 timestamp := r.timestamp } :: rest2
                    | none => rest2)
                 else nxt :: rest2))))) := by
  constructor
  · intro hnone
    have hfi : (messages.findIdx? fun q => q.id = messageId) = none :=
      List.findIdx?_eq_none_iff.mpr fun x hx => by
        simp [hnone x hx]
    simp [navigateVersion, hfi]
  · intro m hm hid
    obtain ⟨pre, suf, rfl, hpre, hsuf⟩ :=
      unique_split messages messageId huniq m hm hid
    have hfi : ((pre ++ m :: suf).findIdx? fun q => q.id = messageId) =
        some pre.length :=
      findIdx?_pre _ pre m suf (fun a ha => by simp [hpre a ha])
        (by simp [hid])
    have hbind : ((pre ++ m :: suf).findIdx? fun q => q.id = messageId).bind
        (fun i => (pre ++ m :: suf)[i]?) = some m := by
      rw [hfi]
      simpa using getElem?_mid pre m suf
    constructor
    · intro hlen
      cases hv : m.versions with
      | none =>
        simp only [navigateVersion]
        rw [hbind]
        simp [hv]
      | some vs =>
        rw [hv] at hlen
        simp only [Option.getD_some] at hlen
        simp only [navigateVersion]
        rw [hbind]
        simp [hv, hlen]
    · intro vs hvs hlen2
      have hnotle : ¬vs.length ≤ 1 := by omega
      constructor
      · intro hEq
        simp only [navigateVersion]
        rw [hbind]
        simp [hvs, hnotle, hEq]
      · intro hNe
        have hci : m.currentVersionIndex.getD (vs.length - 1) < vs.length := by
          cases hc : m.currentVersionIndex with
          | none =>
            simp only [hc, Option.getD_none]
            omega
          | some c =>
            have := hrange m hm hid c hc
            rw [hvs] at this
            simpa using this
        have hni : navTarget dir (m.currentVersionIndex.getD (vs.length - 1))
            vs.length < vs.length := by
          cases dir <;> simp [navTarget] <;> omega
        refine ⟨hni, pre, suf, vs[navTarget dir
          (m.currentVersionIndex.getD (vs.length - 1)) vs.length], rfl,
          hpre, List.getElem?_eq_getElem hni, ?_⟩
        have hnav : navigateVersion (pre ++ m :: suf) messageId dir =
            some (rebuildMessages messageId
              vs[navTarget dir (m.currentVersionIndex.getD (vs.length - 1))
                vs.length]
              (navTarget dir (m.currentVersionIndex.getD (vs.length - 1))
                vs.length)
              (pre ++ m :: suf)) := by
          simp only [navigateVersion]
          rw [hbind]
          simp [hvs, hnotle, hNe, List.getElem?_eq_getElem hni]
        rw [hnav, rebuildMessages_pre _ _ _ pre _ hpre,
          rebuildMessages_target _ _ _ m suf hid hsuf]

end IntelliStream

namespace IntelliStream

/-- Counterexample to claim C10 as stated: the claim exempts from change
any target that "is not a user message with at least two versions", but
`navigateVersion` never checks the role — an *assistant* message with
two versions and a movable index is rewritten. -/
def cexAsst : Message :=
  { id := "m1", role := Role.assistant, content := "x", timestamp := 0,
    versions := some [{ id := "v0", content := "c0", timestamp := 0 },
                      { id := "v1", content := "c1", timestamp := 0 }],
    currentVersionIndex := some 1 }

/-- Counterexample for claim C10: navigating an assistant message with
two versions changes the list, where the claim says it must stay
unchanged. -/
theorem navigateVersion_assistant_cex :
    navigateVersion [cexAsst] "m1" Direction.prev ≠ some [cexAsst] := by
  decide

/-- The user message used to instantiate `navigateVersion_spec`. -/
def witNavMsg : Message :=
  { id := "n1", role := Role.user, content := "b", timestamp := 0,
    versions := some [{ id := "w0", content := "a", timestamp := 0 },
                      { id := "w1", content := "b", timestamp := 0 }],
    currentVersionIndex := some 0 }

/-- Concrete instantiation of `navigateVersion_spec`: `"prev"` at
version index 0 leaves the list unchanged. -/
theorem navigateVersion_spec_witness :
    navigateVersion [witNavMsg] "n1" Direction.prev = some [witNavMsg] :=
  ((((navigateVersion_spec [witNavMsg] "n1" Direction.prev (by decide)
      (by
        intro m hm hid ci hci
        rw [List.mem_singleton] at hm
        subst hm
        simp only [witNavMsg, Option.some.injEq] at hci
        subst hci
        decide)).2 witNavMsg (by simp) rfl).2
    [{ id := "w0", content := "a", timestamp := 0 },
     { id := "w1", content := "b", timestamp := 0 }] rfl (by decide)).1
    (by decide))

end IntelliStream
